import Mathlib

/-!
# Walls of Doom — verification of the spec against the source

A shallow embedding of the parts of the walls-of-doom repository that the
frozen claims are about, together with theorems settling each claim.

The sections below follow the source layout:

* `sources/random.cpp` — the xorshift128 random source (`seed_random`,
  `xorshift128`, `find_next_power_of_two`, `random_integer`);
* `game.h` (header only; the implementation is modelled from the spec) —
  the rigid occupancy matrix over the `Game` aggregate;
* `walls-of-doom/io.c` — commands (`command_from_event`,
  `read_next_command`), text input (`read_string`), and drawing
  (`print_absolute`, `print_centered`, `cache_borders_texture`,
  `draw_game`).

Machine integers are embedded as `Nat`/`Int` with explicit reduction
modulo `2 ^ 64` (`U64`) or `2 ^ 32` (`S32` casts) where the C arithmetic
is modular.
-/

namespace WallsOfDoom

/-! ## Random source (`sources/random.cpp`) -/

/-- The modulus of `U64` arithmetic: `2 ^ 64`. -/
def U64_MOD : Nat := 18446744073709551616

/-- C++ conversion of a (possibly negative) integer to `U64`: reduction
modulo `2 ^ 64`. -/
def toU64 (i : Int) : Nat := (i % (18446744073709551616 : Int)).toNat

/-- C++ `static_cast<S32>` of a `U64` value: keep the low 32 bits and
reinterpret them in two's complement. -/
def toS32 (n : Nat) : Int :=
  if n % 4294967296 < 2147483648 then ((n % 4294967296 : Nat) : Int)
  else ((n % 4294967296 : Nat) : Int) - 4294967296

/-- The four static `U64` state variables `x`, `y`, `z`, `w` of
`random.cpp`. -/
structure RandomState where
  x : Nat
  y : Nat
  z : Nat
  w : Nat
deriving Repr, DecidableEq

/-- C++ zero-initializes file-scope statics, so before any seeding the
generator state is all zero. -/
def initialRandomState : RandomState := ⟨0, 0, 0, 0⟩

/-- The state is all zero (the situation the comment in `random.cpp` says
must not happen: "These state variables must be initialized so that they
are not all zero."). -/
def allZeroState (s : RandomState) : Prop :=
  s.x = 0 ∧ s.y = 0 ∧ s.z = 0 ∧ s.w = 0

instance (s : RandomState) : Decidable (allZeroState s) := by
  unfold allZeroState; infer_instance

/-- Function `xorshift128` from `random.cpp`: returns the new `w` and the updated
state `(x, y, z, w) := (y, z, w, (w ^ (w >> 19)) ^ t)` where
`t = (x ^ (x << 11)) ^ ((x ^ (x << 11)) >> 8)`. -/
def xorshift128 (s : RandomState) : Nat × RandomState :=
  let t := s.x
  let t := Nat.xor t ((t <<< 11) % U64_MOD)
  let t := Nat.xor t (t >>> 8)
  let w := Nat.xor s.w (s.w >>> 19)
  let w := Nat.xor w t
  (w, ⟨s.y, s.z, s.w, w⟩)

/-- Function `seed_random` from `random.cpp`: sets `x` to the current time cast to
`U64` and leaves `y`, `z`, `w` untouched.  The time value is passed
explicitly. -/
def seed_random (timeValue : Int) (s : RandomState) : RandomState :=
  { s with x := toU64 timeValue }

/-- The loop of `find_next_power_of_two`:
`while (number != 0) { number >>= 1; result <<= 1; }` with `result`
a `U64` (the left shift is modular). -/
def fnpotLoop (number result : Nat) : Nat :=
  if number = 0 then result
  else fnpotLoop (number / 2) ((result * 2) % U64_MOD)
termination_by number
decreasing_by exact Nat.div_lt_self (Nat.pos_of_ne_zero (by assumption)) (by omega)

/-- Function `find_next_power_of_two` from `random.cpp`. -/
def find_next_power_of_two (number : Nat) : Nat := fnpotLoop number 1

/-- The sampling loop of `random_integer`:
`do { value = xorshift128() % next_power_of_two; } while (value >= range);`
embedded with explicit fuel (the C loop has no bound; the claims only
concern the value returned when the loop exits). -/
def sampleLoop : Nat → Nat → Nat → RandomState → Option Nat × RandomState
  | 0, _, _, s => (none, s)
  | fuel + 1, npot, range, s =>
    let vs := xorshift128 s
    let value := vs.1 % npot
    if value < range then (some value, vs.2)
    else sampleLoop fuel npot range vs.2

/-- Function `random_integer` from `random.cpp`.  `minimum` and `maximum` are `S32`
values; `range = (U64)maximum - minimum + 1` is computed in `U64`
arithmetic, and the final result is `(S32)(minimum + value)`. -/
def random_integer (minimum maximum : Int) (fuel : Nat) (s : RandomState) :
    Option Int × RandomState :=
  if maximum < minimum then (some 0, s)
  else
    let range := (((toU64 maximum + U64_MOD - toU64 minimum) % U64_MOD) + 1) % U64_MOD
    let npot := find_next_power_of_two range
    match sampleLoop fuel npot range s with
    | (none, s1) => (none, s1)
    | (some value, s1) => (some (toS32 ((toU64 minimum + value) % U64_MOD)), s1)

/-- A call into the random source, as used to state determinism. -/
inductive RandomCall where
  | callXorshift : RandomCall
  | callInteger (minimum maximum : Int) (fuel : Nat) : RandomCall
deriving Repr, DecidableEq

/-- Run a sequence of calls against the random source, threading the
internal state and collecting the results. -/
def runRandomCalls (s : RandomState) : List RandomCall → List (Option Int) × RandomState
  | [] => ([], s)
  | RandomCall.callXorshift :: rest =>
    let vs := xorshift128 s
    let tail := runRandomCalls vs.2 rest
    (some (vs.1 : Int) :: tail.1, tail.2)
  | RandomCall.callInteger minimum maximum fuel :: rest =>
    let vs := random_integer minimum maximum fuel s
    let tail := runRandomCalls vs.2 rest
    (vs.1 :: tail.1, tail.2)

/-- Predicate: `r` is a power of two. -/
def IsPowerOfTwo (r : Nat) : Prop := ∃ k : Nat, r = 2 ^ k

/-- Predicate: `r` is the smallest power of two that is at least `n` (the property
the claim asserts of `find_next_power_of_two`). -/
def IsSmallestPowerOfTwoGeq (n r : Nat) : Prop :=
  IsPowerOfTwo r ∧ n ≤ r ∧ ∀ q : Nat, IsPowerOfTwo q → n ≤ q → r ≤ q

/-- The bit length of a natural number, mirroring the halving recursion of
the `find_next_power_of_two` loop. -/
def bitLen (n : Nat) : Nat :=
  if n = 0 then 0 else bitLen (n / 2) + 1
termination_by n
decreasing_by exact Nat.div_lt_self (Nat.pos_of_ne_zero (by assumption)) (by omega)

/-! ### Helper lemmas about the random source -/

theorem fnpotLoop_zero (r : Nat) : fnpotLoop 0 r = r := by
  rw [fnpotLoop, if_pos rfl]

theorem fnpotLoop_step (n r : Nat) (h : n ≠ 0) :
    fnpotLoop n r = fnpotLoop (n / 2) ((r * 2) % U64_MOD) := by
  rw [fnpotLoop, if_neg h]

theorem lt_two_pow_bitLen (n : Nat) : n < 2 ^ bitLen n := by
  induction n using Nat.strong_induction_on with
  | _ n ih =>
    rw [bitLen]
    by_cases hn : n = 0
    · simp [hn]
    · rw [if_neg hn]
      have hdiv : n / 2 < n := Nat.div_lt_self (Nat.pos_of_ne_zero hn) (by omega)
      have := ih (n / 2) hdiv
      rw [pow_succ]
      omega

theorem bitLen_le_of_lt_pow (n j : Nat) (h : n < 2 ^ j) : bitLen n ≤ j := by
  induction n using Nat.strong_induction_on generalizing j with
  | _ n ih =>
    rw [bitLen]
    by_cases hn : n = 0
    · simp [hn]
    · rw [if_neg hn]
      cases j with
      | zero => simp at h; omega
      | succ j =>
        have hdiv : n / 2 < n := Nat.div_lt_self (Nat.pos_of_ne_zero hn) (by omega)
        have hh : n / 2 < 2 ^ j := by
          rw [pow_succ] at h
          omega
        have := ih (n / 2) hdiv j hh
        omega

theorem fnpotLoop_eq_pow (n : Nat) : ∀ r : Nat, 0 < r → r * 2 ^ bitLen n < U64_MOD →
    fnpotLoop n r = r * 2 ^ bitLen n := by
  induction n using Nat.strong_induction_on with
  | _ n ih =>
    intro r hr h
    by_cases hn : n = 0
    · subst hn
      rw [fnpotLoop_zero, bitLen]
      simp
    · have hbl : bitLen n = bitLen (n / 2) + 1 := by rw [bitLen, if_neg hn]
      rw [fnpotLoop_step n r hn]
      rw [hbl] at h
      have hdiv : n / 2 < n := Nat.div_lt_self (Nat.pos_of_ne_zero hn) (by omega)
      have hb : (0 : Nat) < 2 ^ bitLen (n / 2) := Nat.pos_pow_of_pos _ (by omega)
      have hsmall : r * 2 < U64_MOD := by rw [pow_succ] at h; nlinarith
      rw [Nat.mod_eq_of_lt hsmall,
        ih (n / 2) hdiv (r * 2) (by omega) (by rw [pow_succ] at h; nlinarith),
        hbl, pow_succ]
      ring

/-- For `n` below `2 ^ 63` the `U64` left shift never overflows and the
loop returns exactly `2 ^ bitLen n`. -/
theorem find_next_power_of_two_eq_pow (n : Nat) (h : n < 9223372036854775808) :
    find_next_power_of_two n = 2 ^ bitLen n := by
  have hle : bitLen n ≤ 63 := bitLen_le_of_lt_pow n 63 (by norm_num at h ⊢; omega)
  have hlt : 1 * 2 ^ bitLen n < U64_MOD := by
    have : (2 : Nat) ^ bitLen n ≤ 2 ^ 63 := Nat.pow_le_pow_right (by omega) hle
    unfold U64_MOD
    norm_num at this ⊢
    omega
  rw [find_next_power_of_two, fnpotLoop_eq_pow n 1 one_pos hlt, one_mul]

theorem sampleLoop_accepted_lt (fuel npot range : Nat) (s s' : RandomState) (v : Nat)
    (h : sampleLoop fuel npot range s = (some v, s')) : v < range := by
  induction fuel generalizing s with
  | zero => simp [sampleLoop] at h
  | succ fuel ih =>
    simp only [sampleLoop] at h
    split at h
    next hlt =>
      simp only [Prod.mk.injEq, Option.some.injEq] at h
      omega
    next => exact ih _ h

/-- In `U64` arithmetic, `(U64)maximum - minimum + 1` is exactly
`maximum - minimum + 1` for `S32` inputs with `minimum ≤ maximum`. -/
theorem range_eq_of_le (minimum maximum : Int) (hmin : -2147483648 ≤ minimum)
    (hmax : maximum < 2147483648) (hle : minimum ≤ maximum) :
    (((toU64 maximum + U64_MOD - toU64 minimum) % U64_MOD) + 1) % U64_MOD
      = (maximum - minimum + 1).toNat := by
  unfold toU64 U64_MOD
  omega

/-- Cast `(S32)(minimum + value)` round-trips for in-range sums. -/
theorem toS32_roundtrip (minimum : Int) (value : Nat) (h1 : -2147483648 ≤ minimum)
    (h2 : minimum + value < 2147483648) :
    toS32 ((toU64 minimum + value) % U64_MOD) = minimum + value := by
  unfold toS32 toU64 U64_MOD
  split <;> omega

/-! ### Claim theorems about the random source -/

/-- C2: for `S32` arguments with `minimum ≤ maximum`, whenever the
rejection-sampling loop of `random_integer` exits, the returned value lies
in `[minimum, maximum]`; and for `maximum < minimum` the function returns
the sentinel `0` without touching the generator state (no sampling
loop is run). -/
theorem random_integer_respects_range :
    (∀ (minimum maximum : Int) (fuel : Nat) (s s' : RandomState) (r : Int),
        -2147483648 ≤ minimum → maximum < 2147483648 → minimum ≤ maximum →
        random_integer minimum maximum fuel s = (some r, s') →
        minimum ≤ r ∧ r ≤ maximum) ∧
    (∀ (minimum maximum : Int) (fuel : Nat) (s : RandomState),
        maximum < minimum → random_integer minimum maximum fuel s = (some 0, s)) := by
  constructor
  · intro minimum maximum fuel s s' r hmin hmax hle hrun
    rw [random_integer, if_neg (not_lt.mpr hle)] at hrun
    dsimp only at hrun
    rcases hsl : sampleLoop fuel
        (find_next_power_of_two
          ((((toU64 maximum + U64_MOD - toU64 minimum) % U64_MOD) + 1) % U64_MOD))
        ((((toU64 maximum + U64_MOD - toU64 minimum) % U64_MOD) + 1) % U64_MOD) s
      with ⟨vo, s1⟩
    rw [hsl] at hrun
    cases vo with
    | none => simp at hrun
    | some v =>
      simp only [Prod.mk.injEq, Option.some.injEq] at hrun
      have hv : v < (((toU64 maximum + U64_MOD - toU64 minimum) % U64_MOD) + 1) % U64_MOD :=
        sampleLoop_accepted_lt _ _ _ _ _ _ hsl
      rw [range_eq_of_le minimum maximum hmin hmax hle] at hv
      have hvle : (v : Int) ≤ maximum - minimum := by omega
      have hsum : minimum + v < 2147483648 := by omega
      have := toS32_roundtrip minimum v hmin hsum
      rw [this] at hrun
      omega
  · intro minimum maximum fuel s hlt
    rw [random_integer, if_pos hlt]

/-- Witness for C2: a concrete in-range run (`random_integer 0 1` from
state `(1,2,3,4)` returns `1`) and a concrete sentinel run
(`random_integer 5 3` returns `0` with the state untouched). -/
theorem random_integer_respects_range_witness :
    ((0 : Int) ≤ 1 ∧ (1 : Int) ≤ 1) ∧
    random_integer 5 3 10 ⟨1, 2, 3, 4⟩ = (some 0, ⟨1, 2, 3, 4⟩) := by
  have hnp : find_next_power_of_two 2 = 4 := by
    simp [find_next_power_of_two, fnpotLoop_step, fnpotLoop_zero, U64_MOD]
  have hrun : random_integer 0 1 10 ⟨1, 2, 3, 4⟩ = (some 1, ⟨2, 3, 4, 2061⟩) := by
    rw [random_integer, if_neg (by norm_num : ¬(1 : Int) < 0)]
    norm_num [toU64, U64_MOD]
    rw [hnp]
    decide
  have h := random_integer_respects_range.1 0 1 10 ⟨1, 2, 3, 4⟩ ⟨2, 3, 4, 2061⟩ 1
    (by norm_num) (by norm_num) (by norm_num) hrun
  exact ⟨⟨h.1, h.2⟩,
    random_integer_respects_range.2 5 3 10 ⟨1, 2, 3, 4⟩ (by norm_num)⟩

/-- C3, counterexample: `find_next_power_of_two 1 = 2`, which is **not**
the smallest power of two `≥ 1` (that would be `1` itself): the function
returns the smallest power of two strictly greater than its argument. -/
theorem find_next_power_of_two_not_minimal_geq :
    find_next_power_of_two 1 = 2 ∧
    ¬ IsSmallestPowerOfTwoGeq 1 (find_next_power_of_two 1) := by
  have h1 : find_next_power_of_two 1 = 2 := by
    simp [find_next_power_of_two, fnpotLoop_step, fnpotLoop_zero, U64_MOD]
  refine ⟨h1, fun h => ?_⟩
  have h2 := h.2.2 1 ⟨0, rfl⟩ le_rfl
  rw [h1] at h2
  omega

/-- C3 (amended): `find_next_power_of_two n` is the smallest power of two
**strictly greater** than `n`, for every `n < 2 ^ 63` (beyond which the
`U64` left shift of the loop overflows); in particular it maps 0 to 1,
1 to 2, 2 to 4, 3 to 4, and 4 to 8. -/
theorem find_next_power_of_two_strictly_greater :
    (find_next_power_of_two 0 = 1 ∧ find_next_power_of_two 1 = 2 ∧
     find_next_power_of_two 2 = 4 ∧ find_next_power_of_two 3 = 4 ∧
     find_next_power_of_two 4 = 8) ∧
    ∀ n : Nat, n < 9223372036854775808 →
      IsPowerOfTwo (find_next_power_of_two n) ∧
      n < find_next_power_of_two n ∧
      ∀ q : Nat, IsPowerOfTwo q → n < q → find_next_power_of_two n ≤ q := by
  constructor
  · refine ⟨?_, ?_, ?_, ?_, ?_⟩ <;>
      simp [find_next_power_of_two, fnpotLoop_step, fnpotLoop_zero, U64_MOD]
  · intro n hn
    rw [find_next_power_of_two_eq_pow n hn]
    refine ⟨⟨bitLen n, rfl⟩, lt_two_pow_bitLen n, ?_⟩
    rintro q ⟨j, rfl⟩ hq
    exact Nat.pow_le_pow_right (by omega) (bitLen_le_of_lt_pow n j hq)

/-- Witness for C3 (amended): at `n = 5` the function returns a power of
two strictly greater than 5 that is at most the next power `8`. -/
theorem find_next_power_of_two_strictly_greater_witness :
    IsPowerOfTwo (find_next_power_of_two 5) ∧ 5 < find_next_power_of_two 5 ∧
    find_next_power_of_two 5 ≤ 8 := by
  have h := find_next_power_of_two_strictly_greater.2 5 (by norm_num)
  exact ⟨h.1, h.2.1, h.2.2 8 ⟨3, rfl⟩ (by norm_num)⟩

/-- C5: evaluating `seed_random` at the failing input.  From the
zero-initialized startup state, seeding with a time value of `0` (the Unix
epoch) leaves all four state variables `x, y, z, w` equal to zero —
exactly the situation the comment in `random.cpp` says must not happen.
`seed_random` only assigns `x = time(NULL)` and never touches `y`, `z`,
`w`, so it cannot guarantee a non-all-zero state. -/
theorem seed_random_can_leave_all_zero_state :
    allZeroState (seed_random 0 initialRandomState) := by decide

/-- C6: the random source is deterministic — two runs started from equal
internal states produce equal results (and equal final states) for every
sequence of `xorshift128` / `random_integer` calls. -/
theorem random_source_deterministic (s1 s2 : RandomState) (calls : List RandomCall)
    (h : s1 = s2) : runRandomCalls s1 calls = runRandomCalls s2 calls := by
  rw [h]

/-- Witness for C6: two equal concrete states run on a concrete call
sequence. -/
theorem random_source_deterministic_witness :
    runRandomCalls ⟨1, 2, 3, 4⟩ [RandomCall.callXorshift, RandomCall.callXorshift]
      = runRandomCalls ⟨1, 2, 3, 4⟩ [RandomCall.callXorshift, RandomCall.callXorshift] :=
  random_source_deterministic ⟨1, 2, 3, 4⟩ ⟨1, 2, 3, 4⟩
    [RandomCall.callXorshift, RandomCall.callXorshift] rfl

/-! ## Rigid occupancy matrix (`game.h`)

The repository ships only the header `game.h`, which declares
`get_from_rigid_matrix`, `modify_rigid_matrix_point` and
`modify_rigid_matrix_platform`; the implementation file is not part of the
sources here.  The definitions below are therefore modelled from the
spec. -/

/-- Modelled from the spec: a platform is a "moving rectangular strip"
— a rectangle defined by origin `x`, `y` and `width` (one cell tall), as
also used by `draw_platforms` in `io.c`. -/
structure Platform where
  x : Int
  y : Int
  width : Nat
deriving Repr, DecidableEq

/-- The `BoundingBox` of `box.hpp`: inclusive limits of the playable
area. -/
structure BoundingBox where
  min_x : Int
  min_y : Int
  max_x : Int
  max_y : Int
deriving Repr, DecidableEq

/-- Point containment in the bounding box (inclusive on all sides). -/
def inBoundingBox (b : BoundingBox) (x y : Int) : Prop :=
  b.min_x ≤ x ∧ x ≤ b.max_x ∧ b.min_y ≤ y ∧ y ≤ b.max_y

instance (b : BoundingBox) (x y : Int) : Decidable (inBoundingBox b x y) := by
  unfold inBoundingBox; infer_instance

/-- The platform's rectangle covers the cell `(x, y)`: same row, and `x`
within `[p.x, p.x + p.width)`. -/
def platformCovers (p : Platform) (x y : Int) : Bool :=
  decide (y = p.y ∧ p.x ≤ x ∧ x < p.x + (p.width : Int))

/-- The rigid matrix, as a per-cell counter.  The counters are embedded as
integers so that non-negativity is a statement, not a typing artifact. -/
def RigidMatrix : Type := Int → Int → Int

/-- Modelled from the spec: the `Game` fields involved in the rigid
occupancy invariant — the live platform sequence, the bounding box and
the rigid matrix (`game.h` lines 23–46). -/
structure RigidGame where
  box : BoundingBox
  platforms : List Platform
  rigid_matrix : RigidMatrix

/-- Modelled from the spec: `get(x,y)` "returns occupancy count at a
cell, fails/clamps for out-of-bounds queries" — out-of-bounds queries
report zero. -/
def get_from_rigid_matrix (g : RigidGame) (x y : Int) : Int :=
  if inBoundingBox g.box x y then g.rigid_matrix x y else 0

/-- Modelled from the spec: `modify_point(x,y,delta)` "adds `delta` (±1)
to a cell's counter", clipped to the bounding box. -/
def modify_rigid_matrix_point (b : BoundingBox) (m : RigidMatrix) (x y : Int)
    (delta : Int) : RigidMatrix :=
  if inBoundingBox b x y then
    fun x' y' => if x' = x ∧ y' = y then m x' y' + delta else m x' y'
  else m

/-- Modelled from the spec: `modify_platform(platform, delta)` "applies
`delta` to every cell the platform's rectangle covers, clipped to the
bounding box" — one `modify_point` per covered cell. -/
def modify_rigid_matrix_platform (b : BoundingBox) (m : RigidMatrix) (p : Platform)
    (delta : Int) : RigidMatrix :=
  (List.range p.width).foldl
    (fun (acc : RigidMatrix) (i : Nat) =>
      modify_rigid_matrix_point b acc (p.x + (i : Int)) p.y delta) m

/-- A platform lifecycle event, as described in the spec's platform
motion section: spawn adds occupancy, despawn retracts it, and a move
retracts the old rectangle before adding the new one. -/
inductive PlatformOp where
  | spawn (p : Platform) : PlatformOp
  | despawn (p : Platform) : PlatformOp
  | move (pold pnew : Platform) : PlatformOp
deriving Repr, DecidableEq

/-- Modelled from the spec: apply one platform lifecycle event to the
game, keeping the rigid matrix incrementally up to date via
`modify_rigid_matrix_platform`.  Despawns and moves of a platform that is
not live do not match any real lifecycle event and leave the state
unchanged. -/
def applyPlatformOp (g : RigidGame) : PlatformOp → RigidGame
  | PlatformOp.spawn p =>
    { g with platforms := p :: g.platforms,
             rigid_matrix := modify_rigid_matrix_platform g.box g.rigid_matrix p 1 }
  | PlatformOp.despawn p =>
    if p ∈ g.platforms then
      { g with platforms := g.platforms.erase p,
               rigid_matrix := modify_rigid_matrix_platform g.box g.rigid_matrix p (-1) }
    else g
  | PlatformOp.move pold pnew =>
    if pold ∈ g.platforms then
      { g with platforms := pnew :: g.platforms.erase pold,
               rigid_matrix :=
                 modify_rigid_matrix_platform g.box
                   (modify_rigid_matrix_platform g.box g.rigid_matrix pold (-1)) pnew 1 }
    else g

/-- The game right after `create_game`: no platforms, all counters zero. -/
def initialRigidGame (b : BoundingBox) : RigidGame :=
  ⟨b, [], fun _ _ => 0⟩

/-- Run a sequence of platform lifecycle events. -/
def runPlatformOps (g : RigidGame) (ops : List PlatformOp) : RigidGame :=
  ops.foldl applyPlatformOp g

/-- The number of currently-live platforms whose rectangle covers
`(x, y)`. -/
def coveringCount (ps : List Platform) (x y : Int) : Nat :=
  (ps.filter (fun p => platformCovers p x y)).length

/-! ### Rigid matrix invariant lemmas -/

theorem modify_point_apply (b : BoundingBox) (m : RigidMatrix) (x0 y0 delta x y : Int) :
    modify_rigid_matrix_point b m x0 y0 delta x y =
      if x = x0 ∧ y = y0 ∧ inBoundingBox b x0 y0 then m x y + delta else m x y := by
  by_cases hb : inBoundingBox b x0 y0
  · rw [modify_rigid_matrix_point, if_pos hb]
    show (if x = x0 ∧ y = y0 then m x y + delta else m x y) = _
    by_cases hxy : x = x0 ∧ y = y0
    · rw [if_pos hxy, if_pos ⟨hxy.1, hxy.2, hb⟩]
    · rw [if_neg hxy, if_neg (by tauto)]
  · rw [modify_rigid_matrix_point, if_neg hb, if_neg (by tauto)]

theorem modify_platform_loop_apply (b : BoundingBox) (px py delta : Int) (n : Nat)
    (m : RigidMatrix) (x y : Int) :
    (List.range n).foldl
        (fun (acc : RigidMatrix) (i : Nat) =>
          modify_rigid_matrix_point b acc (px + (i : Int)) py delta) m x y =
      if y = py ∧ px ≤ x ∧ x < px + (n : Int) ∧ inBoundingBox b x y then m x y + delta
      else m x y := by
  induction n generalizing m with
  | zero =>
    have hno : ¬ (y = py ∧ px ≤ x ∧ x < px + ((0 : Nat) : Int) ∧ inBoundingBox b x y) := by
      rintro ⟨-, h2, h3, -⟩
      push_cast at h3
      omega
    rw [if_neg hno]
    simp
  | succ n ih =>
    rw [List.range_succ, List.foldl_append]
    simp only [List.foldl_cons, List.foldl_nil]
    rw [modify_point_apply, ih]
    simp only [inBoundingBox]
    push_cast
    split_ifs <;> omega

theorem modify_platform_apply (b : BoundingBox) (m : RigidMatrix) (p : Platform)
    (delta : Int) (x y : Int) :
    modify_rigid_matrix_platform b m p delta x y =
      if platformCovers p x y = true ∧ inBoundingBox b x y then m x y + delta
      else m x y := by
  rw [modify_rigid_matrix_platform, modify_platform_loop_apply]
  have hiff : (platformCovers p x y = true ∧ inBoundingBox b x y)
      ↔ (y = p.y ∧ p.x ≤ x ∧ x < p.x + (p.width : Int) ∧ inBoundingBox b x y) := by
    rw [platformCovers]
    simp only [decide_eq_true_eq]
    tauto
  rw [if_congr hiff.symm rfl rfl]

def rigidInvariant (g : RigidGame) : Prop :=
  (∀ x y : Int, inBoundingBox g.box x y →
      g.rigid_matrix x y = (coveringCount g.platforms x y : Int)) ∧
  (∀ x y : Int, ¬ inBoundingBox g.box x y → g.rigid_matrix x y = 0)

theorem coveringCount_cons (p : Platform) (ps : List Platform) (x y : Int) :
    coveringCount (p :: ps) x y
      = (if platformCovers p x y = true then 1 else 0) + coveringCount ps x y := by
  rw [coveringCount, coveringCount, List.filter_cons]
  split
  next => rw [List.length_cons]; omega
  next => omega

theorem coveringCount_erase (p : Platform) (ps : List Platform) (x y : Int) (hmem : p ∈ ps) :
    coveringCount ps x y
      = (if platformCovers p x y = true then 1 else 0) + coveringCount (ps.erase p) x y := by
  have hperm : ps.Perm (p :: ps.erase p) := List.perm_cons_erase hmem
  have hlen : coveringCount ps x y = coveringCount (p :: ps.erase p) x y := by
    rw [coveringCount, coveringCount]
    exact (hperm.filter (fun q => platformCovers q x y)).length_eq
  rw [hlen, coveringCount_cons]

theorem applyPlatformOp_box (g : RigidGame) (op : PlatformOp) :
    (applyPlatformOp g op).box = g.box := by
  cases op with
  | spawn p => rfl
  | despawn p =>
    rw [applyPlatformOp]
    split <;> rfl
  | move pold pnew =>
    rw [applyPlatformOp]
    split <;> rfl

theorem applyPlatformOp_preserves (g : RigidGame) (op : PlatformOp)
    (h : rigidInvariant g) : rigidInvariant (applyPlatformOp g op) := by
  obtain ⟨hin, hout⟩ := h
  cases op with
  | spawn p =>
    constructor
    · intro x y hxy
      simp only [applyPlatformOp] at hxy ⊢
      rw [modify_platform_apply, coveringCount_cons]
      by_cases hc : platformCovers p x y = true
      · rw [if_pos ⟨hc, hxy⟩, if_pos hc, hin x y hxy]
        push_cast
        ring
      · rw [if_neg (by tauto), if_neg hc, hin x y hxy]
        push_cast
        ring
    · intro x y hxy
      simp only [applyPlatformOp] at hxy ⊢
      rw [modify_platform_apply, if_neg (by tauto), hout x y hxy]
  | despawn p =>
    rw [applyPlatformOp]
    split
    next hmem =>
      constructor
      · intro x y hxy
        simp only [] at hxy ⊢
        rw [modify_platform_apply]
        have hbase := hin x y hxy
        have hspl := coveringCount_erase p g.platforms x y hmem
        by_cases hc : platformCovers p x y = true
        · rw [if_pos ⟨hc, hxy⟩]
          rw [if_pos hc] at hspl
          omega
        · rw [if_neg (fun hand => hc hand.1)]
          rw [if_neg hc] at hspl
          omega
      · intro x y hxy
        simp only [] at hxy ⊢
        rw [modify_platform_apply, if_neg (by tauto), hout x y hxy]
    next => exact ⟨hin, hout⟩
  | move pold pnew =>
    rw [applyPlatformOp]
    split
    next hmem =>
      constructor
      · intro x y hxy
        simp only [] at hxy ⊢
        rw [modify_platform_apply, modify_platform_apply, coveringCount_cons]
        have hbase := hin x y hxy
        have hspl := coveringCount_erase pold g.platforms x y hmem
        by_cases hcn : platformCovers pnew x y = true <;>
          by_cases hco : platformCovers pold x y = true
        · rw [if_pos ⟨hcn, hxy⟩, if_pos ⟨hco, hxy⟩, if_pos hcn]
          rw [if_pos hco] at hspl
          omega
        · rw [if_pos ⟨hcn, hxy⟩, if_neg (fun hand => hco hand.1), if_pos hcn]
          rw [if_neg hco] at hspl
          omega
        · rw [if_neg (fun hand => hcn hand.1), if_pos ⟨hco, hxy⟩, if_neg hcn]
          rw [if_pos hco] at hspl
          omega
        · rw [if_neg (fun hand => hcn hand.1), if_neg (fun hand => hco hand.1), if_neg hcn]
          rw [if_neg hco] at hspl
          omega
      · intro x y hxy
        simp only [] at hxy ⊢
        rw [modify_platform_apply, if_neg (by tauto), modify_platform_apply,
          if_neg (by tauto), hout x y hxy]
    next => exact ⟨hin, hout⟩

theorem rigidInvariant_initial (b : BoundingBox) : rigidInvariant (initialRigidGame b) := by
  constructor <;> intro x y _ <;> simp [initialRigidGame, coveringCount]

theorem runPlatformOps_preserves (ops : List PlatformOp) (g : RigidGame)
    (h : rigidInvariant g) : rigidInvariant (runPlatformOps g ops) := by
  induction ops generalizing g with
  | nil => exact h
  | cons op rest ih =>
    simp only [runPlatformOps, List.foldl_cons]
    exact ih (applyPlatformOp g op) (applyPlatformOp_preserves g op h)

theorem runPlatformOps_box (ops : List PlatformOp) (g : RigidGame) :
    (runPlatformOps g ops).box = g.box := by
  induction ops generalizing g with
  | nil => rfl
  | cons op rest ih =>
    simp only [runPlatformOps, List.foldl_cons]
    rw [show (List.foldl applyPlatformOp (applyPlatformOp g op) rest)
        = runPlatformOps (applyPlatformOp g op) rest from rfl]
    rw [ih, applyPlatformOp_box]

/-- C1 (spec-modelled): after any sequence of platform spawns, despawns
and moves — each updating the rigid matrix through
`modify_rigid_matrix_platform` — `get_from_rigid_matrix` at every in-box
cell equals the number of currently-live platforms covering that cell,
and every counter in the rigid matrix is non-negative. -/
theorem rigid_matrix_occupancy_invariant (b : BoundingBox) (ops : List PlatformOp) :
    (∀ x y : Int, inBoundingBox b x y →
        get_from_rigid_matrix (runPlatformOps (initialRigidGame b) ops) x y
          = (coveringCount (runPlatformOps (initialRigidGame b) ops).platforms x y : Int)) ∧
    (∀ x y : Int, 0 ≤ (runPlatformOps (initialRigidGame b) ops).rigid_matrix x y) := by
  have hinv := runPlatformOps_preserves ops _ (rigidInvariant_initial b)
  have hbox : (runPlatformOps (initialRigidGame b) ops).box = b :=
    runPlatformOps_box ops (initialRigidGame b)
  obtain ⟨h1, h2⟩ := hinv
  constructor
  · intro x y hxy
    have hxy' : inBoundingBox (runPlatformOps (initialRigidGame b) ops).box x y := by
      rw [hbox]; exact hxy
    rw [get_from_rigid_matrix, if_pos hxy']
    exact h1 x y hxy'
  · intro x y
    by_cases hxy : inBoundingBox (runPlatformOps (initialRigidGame b) ops).box x y
    · rw [h1 x y hxy]
      exact Int.natCast_nonneg _
    · rw [h2 x y hxy]

/-- Witness for C1: a box `[0,10] × [0,10]`, one spawned platform of
width 3 at `(1,1)`, queried at the covered in-box cell `(2,1)`. -/
theorem rigid_matrix_occupancy_invariant_witness :
    inBoundingBox ⟨0, 0, 10, 10⟩ 2 1 ∧
    get_from_rigid_matrix
        (runPlatformOps (initialRigidGame ⟨0, 0, 10, 10⟩) [PlatformOp.spawn ⟨1, 1, 3⟩]) 2 1
      = (coveringCount (runPlatformOps (initialRigidGame ⟨0, 0, 10, 10⟩)
          [PlatformOp.spawn ⟨1, 1, 3⟩]).platforms 2 1 : Int) ∧
    0 ≤ (runPlatformOps (initialRigidGame ⟨0, 0, 10, 10⟩)
          [PlatformOp.spawn ⟨1, 1, 3⟩]).rigid_matrix 2 1 :=
  ⟨by decide,
   (rigid_matrix_occupancy_invariant ⟨0, 0, 10, 10⟩ [PlatformOp.spawn ⟨1, 1, 3⟩]).1 2 1
     (by decide),
   (rigid_matrix_occupancy_invariant ⟨0, 0, 10, 10⟩ [PlatformOp.spawn ⟨1, 1, 3⟩]).2 2 1⟩


/-! ## Commands and input events (`walls-of-doom/io.c`) -/

/-- The `Command` enumeration of `command.h`. -/
inductive Command where
  | none : Command
  | up : Command
  | down : Command
  | left : Command
  | right : Command
  | center : Command
  | jump : Command
  | enter : Command
  | pause : Command
  | invest : Command
  | convert : Command
  | quit : Command
  | close : Command
deriving Repr, DecidableEq

/-- The SDL keycodes that `command_from_event` distinguishes; every other
keycode is `otherKey`. -/
inductive Keycode where
  | kp_8 : Keycode
  | up : Keycode
  | kp_4 : Keycode
  | left : Keycode
  | kp_5 : Keycode
  | kp_6 : Keycode
  | right : Keycode
  | kp_2 : Keycode
  | down : Keycode
  | space : Keycode
  | ret : Keycode
  | kp_enter : Keycode
  | letter_c : Keycode
  | letter_q : Keycode
  | backspace : Keycode
  | otherKey : Keycode
deriving Repr, DecidableEq

/-- The SDL events that `read_next_command` / `read_string` distinguish:
`SDL_QUIT`, `SDL_KEYDOWN` (with its keycode), `SDL_TEXTINPUT` (with the
first character of its text) and everything else. -/
inductive Event where
  | quit : Event
  | keyDown (keycode : Keycode) : Event
  | textInput (c : Char) : Event
  | otherEvent : Event
deriving Repr, DecidableEq

/-- Function `command_from_event` from `io.c`: maps `SDL_QUIT` to `COMMAND_CLOSE`,
a key-down to its command, and everything else to `COMMAND_NONE`. -/
def command_from_event (event : Event) : Command :=
  match event with
  | Event.quit => Command.close
  | Event.keyDown keycode =>
    if keycode = Keycode.kp_8 ∨ keycode = Keycode.up then Command.up
    else if keycode = Keycode.kp_4 ∨ keycode = Keycode.left then Command.left
    else if keycode = Keycode.kp_5 then Command.center
    else if keycode = Keycode.kp_6 ∨ keycode = Keycode.right then Command.right
    else if keycode = Keycode.kp_2 ∨ keycode = Keycode.down then Command.down
    else if keycode = Keycode.space then Command.jump
    else if keycode = Keycode.ret ∨ keycode = Keycode.kp_enter then Command.enter
    else if keycode = Keycode.letter_c then Command.convert
    else if keycode = Keycode.letter_q then Command.quit
    else Command.none
  | Event.textInput _ => Command.none
  | Event.otherEvent => Command.none

/-- Function `read_next_command` from `io.c`: drain every pending event
(`while (SDL_PollEvent(&event))`), remembering the last command different
from `COMMAND_NONE`. -/
def read_next_command (events : List Event) : Command :=
  events.foldl
    (fun last e =>
      let current := command_from_event e
      if current ≠ Command.none then current else last)
    Command.none

/-- Helper for C4: the generalized fold of `read_next_command` returns the
last meaningful command of the drained sequence, or its accumulator when
there is none. -/
theorem read_next_command_foldl (events : List Event) : ∀ acc : Command,
    events.foldl
        (fun last e =>
          let current := command_from_event e
          if current ≠ Command.none then current else last)
        acc
      = (((events.map command_from_event).filter
            (fun c => decide (c ≠ Command.none))).getLast?).getD acc := by
  induction events using List.reverseRecOn with
  | nil => intro acc; rfl
  | append_singleton events e ih =>
    intro acc
    rw [List.foldl_append, List.foldl_cons, List.foldl_nil, List.map_append,
      List.filter_append]
    dsimp only
    rw [List.map_cons, List.map_nil, List.filter_cons, List.filter_nil]
    by_cases hc : command_from_event e = Command.none
    · rw [hc, if_neg (fun hne => hne rfl), ih]
      rw [if_neg (by simp), List.append_nil]
    · rw [if_pos hc, if_pos (by simp [hc]), List.getLast?_concat]
      rfl

/-- C4: `read_next_command` consumes the whole pending event list and
returns the command of the last event mapping to a command different
from `COMMAND_NONE`, or `COMMAND_NONE` when no drained event maps to a
meaningful command. -/
theorem read_next_command_last_one_wins (events : List Event) :
    read_next_command events
      = (((events.map command_from_event).filter
            (fun c => decide (c ≠ Command.none))).getLast?).getD Command.none := by
  rw [read_next_command, read_next_command_foldl]


/-! ## Text input: `read_string` (`walls-of-doom/io.c`) -/

/-- The `Code` enumeration of `code.h`, as used by `io.c`. -/
inductive Code where
  | ok : Code
  | quit : Code
  | error : Code
deriving Repr, DecidableEq

/-- Function `is_valid_input_character` from `io.c`: `isalnum(c)` — letters and
digits only. -/
def is_valid_input_character (c : Char) : Bool := c.isAlphanum

/-- The result of running the `read_string` event loop: every successive
content of the destination buffer (initial state included), the indices
of every byte store into the buffer, and the returned code. -/
structure ReadStringRun where
  states : List (List Char)
  writes : List Nat
  code : Code

/-- The event loop of `read_string` from `io.c`, driven by a list of
pending events.  The buffer is the current NUL-terminated content of
`destination`; `written` is its length.

* `SDL_QUIT` returns `CODE_QUIT` at once;
* backspace with `written > 0` stores `'\0'` at index `written - 1`
  (`write--; *write = '\0'; written--;`);
* `SDLK_RETURN` leaves the loop with `CODE_OK`;
* a text-input character `c` with `is_valid_input_character c` and
  `written + 1 < size` stores `c` at index `written` and `'\0'` at
  index `written + 1`;
* every other event changes nothing.

Exhausting the modelled event list also yields `CODE_OK` (the C loop
would block for more events; no further buffer change happens). -/
def read_string_loop (size : Nat) (buffer : List Char) : List Event → ReadStringRun
  | [] => ⟨[buffer], [], Code.ok⟩
  | e :: rest =>
    match e with
    | Event.quit => ⟨[buffer], [], Code.quit⟩
    | Event.keyDown k =>
      if k = Keycode.backspace ∧ 0 < buffer.length then
        let run := read_string_loop size buffer.dropLast rest
        ⟨buffer :: run.states, (buffer.length - 1) :: run.writes, run.code⟩
      else if k = Keycode.ret then ⟨[buffer], [], Code.ok⟩
      else
        let run := read_string_loop size buffer rest
        ⟨buffer :: run.states, run.writes, run.code⟩
    | Event.textInput c =>
      if is_valid_input_character c = true ∧ buffer.length + 1 < size then
        let run := read_string_loop size (buffer ++ [c]) rest
        ⟨buffer :: run.states, buffer.length :: (buffer.length + 1) :: run.writes, run.code⟩
      else
        let run := read_string_loop size buffer rest
        ⟨buffer :: run.states, run.writes, run.code⟩
    | Event.otherEvent =>
      let run := read_string_loop size buffer rest
      ⟨buffer :: run.states, run.writes, run.code⟩

/-- C9: throughout the `read_string` loop, if the destination starts as a
string of length strictly below `size`, then every intermediate content
of the buffer keeps length strictly below `size`, and every store into
the buffer hits an index strictly below `size` — no write at or past
`destination[size]` ever happens. -/
theorem read_string_buffer_safety (size : Nat) (buffer : List Char) (events : List Event)
    (h0 : buffer.length < size) :
    (∀ b ∈ (read_string_loop size buffer events).states, b.length < size) ∧
    (∀ i ∈ (read_string_loop size buffer events).writes, i < size) := by
  induction events generalizing buffer with
  | nil =>
    refine ⟨?_, ?_⟩ <;> intro b hb <;> simp [read_string_loop] at hb
    · rw [hb]; exact h0
  | cons e rest ih =>
    cases e with
    | quit =>
      refine ⟨?_, ?_⟩ <;> intro b hb <;> simp [read_string_loop] at hb
      · rw [hb]; exact h0
    | keyDown k =>
      rw [read_string_loop]
      by_cases hbk : k = Keycode.backspace ∧ 0 < buffer.length
      · rw [if_pos hbk]
        have hlen : buffer.dropLast.length < size := by
          rw [List.length_dropLast]
          omega
        obtain ⟨ihs, ihw⟩ := ih buffer.dropLast hlen
        constructor
        · intro b hb
          rcases List.mem_cons.mp hb with hb | hb
          · rw [hb]; exact h0
          · exact ihs b hb
        · intro i hi
          rcases List.mem_cons.mp hi with hi | hi
          · omega
          · exact ihw i hi
      · rw [if_neg hbk]
        by_cases hret : k = Keycode.ret
        · rw [if_pos hret]
          refine ⟨?_, ?_⟩ <;> intro b hb <;> simp at hb
          · rw [hb]; exact h0
        · rw [if_neg hret]
          obtain ⟨ihs, ihw⟩ := ih buffer h0
          constructor
          · intro b hb
            rcases List.mem_cons.mp hb with hb | hb
            · rw [hb]; exact h0
            · exact ihs b hb
          · exact ihw
    | textInput c =>
      rw [read_string_loop]
      by_cases hc : is_valid_input_character c = true ∧ buffer.length + 1 < size
      · rw [if_pos hc]
        have hlen : (buffer ++ [c]).length < size := by
          rw [List.length_append]
          simpa using hc.2
        obtain ⟨ihs, ihw⟩ := ih (buffer ++ [c]) hlen
        constructor
        · intro b hb
          rcases List.mem_cons.mp hb with hb | hb
          · rw [hb]; exact h0
          · exact ihs b hb
        · intro i hi
          rcases List.mem_cons.mp hi with hi | hi
          · omega
          · rcases List.mem_cons.mp hi with hi | hi
            · omega
            · exact ihw i hi
      · rw [if_neg hc]
        obtain ⟨ihs, ihw⟩ := ih buffer h0
        constructor
        · intro b hb
          rcases List.mem_cons.mp hb with hb | hb
          · rw [hb]; exact h0
          · exact ihs b hb
        · exact ihw
    | otherEvent =>
      rw [read_string_loop]
      obtain ⟨ihs, ihw⟩ := ih buffer h0
      constructor
      · intro b hb
        rcases List.mem_cons.mp hb with hb | hb
        · rw [hb]; exact h0
        · exact ihs b hb
      · exact ihw

/-- Witness for C9: a concrete run with `size = 4` from buffer `"ab"`,
appending `'c'` (rejected: `2 + 1 < 4` holds, accepted), then a
backspace — all intermediate lengths stay below 4 and all writes stay
below index 4. -/
theorem read_string_buffer_safety_witness :
    (∀ b ∈ (read_string_loop 4 ['a', 'b']
        [Event.textInput 'c', Event.keyDown Keycode.backspace]).states, b.length < 4) ∧
    (∀ i ∈ (read_string_loop 4 ['a', 'b']
        [Event.textInput 'c', Event.keyDown Keycode.backspace]).writes, i < 4) :=
  read_string_buffer_safety 4 ['a', 'b']
    [Event.textInput 'c', Event.keyDown Keycode.backspace] (by decide)


/-! ## Drawing primitives (`walls-of-doom/io.c`) -/

/-- Outcomes of the SDL allocation calls a drawing primitive makes:
whether `TTF_RenderText_Shaded` returns a surface and whether
`SDL_CreateTextureFromSurface` / `SDL_CreateTexture` return a texture. -/
structure RenderEnv where
  surface_ok : Bool
  texture_ok : Bool
deriving Repr, DecidableEq

/-- Function `print_absolute` from `io.c`.  The string is `none` for a NULL
pointer.  Returns the `Code` and whether anything was copied to the
renderer.  The source checks, in order: NULL-or-empty string (returns
`CODE_OK`), negative coordinates (returns `CODE_ERROR`), surface
allocation, texture creation, and only then renders. -/
def print_absolute (x y : Int) (s : Option String) (env : RenderEnv) : Code × Bool :=
  match s with
  | none => (Code.ok, false)
  | some str =>
    if str = "" then (Code.ok, false)
    else if x < 0 ∨ y < 0 then (Code.error, false)
    else if env.surface_ok = false then (Code.error, false)
    else if env.texture_ok = false then (Code.error, false)
    else (Code.ok, true)

/-- Function `print_centered` from `io.c`: validates `y < 0` before any SDL call,
then renders the string centered. -/
def print_centered (y : Int) (s : String) (env : RenderEnv) : Code × Bool :=
  if y < 0 then (Code.error, false)
  else if env.surface_ok = false then (Code.error, false)
  else if env.texture_ok = false then (Code.error, false)
  else (Code.ok, true)

/-- Function `cache_borders_texture` from `io.c`: fails if a borders texture is
already cached, then validates the bounding box
(`min_x < 0 || min_y < 0 || min_x > max_x || min_y > max_y`), then
creates the target texture and renders the border glyphs into it. -/
def cache_borders_texture (cached : Bool) (borders : BoundingBox) (env : RenderEnv) :
    Code × Bool :=
  if cached = true then (Code.error, false)
  else if borders.min_x < 0 ∨ borders.min_y < 0 ∨ borders.min_x > borders.max_x ∨
      borders.min_y > borders.max_y then (Code.error, false)
  else if env.texture_ok = false then (Code.error, false)
  else (Code.ok, true)

/-- C7, counterexample: `print_absolute` called with negative coordinates
and an empty string returns `CODE_OK`, not `CODE_ERROR`, because the
empty-string check precedes the negative-coordinate check. -/
theorem print_absolute_negative_empty_not_error :
    (print_absolute (-1) (-1) (some "") ⟨true, true⟩).1 = Code.ok ∧
    Code.ok ≠ Code.error := by decide

/-- C7 (amended): every drawing operation passed a negative coordinate or
an invalid bounding box detects the error at entry and returns
`CODE_ERROR` without drawing — except that `print_absolute` first checks
for a NULL or empty string and then returns `CODE_OK` (still without
drawing), so its negative-coordinate error applies to non-empty
strings. -/
theorem drawing_rejects_invalid_geometry :
    (∀ (x y : Int) (s : String) (env : RenderEnv), s ≠ "" → x < 0 ∨ y < 0 →
        print_absolute x y (some s) env = (Code.error, false)) ∧
    (∀ (y : Int) (s : String) (env : RenderEnv), y < 0 →
        print_centered y s env = (Code.error, false)) ∧
    (∀ (cached : Bool) (borders : BoundingBox) (env : RenderEnv),
        borders.min_x < 0 ∨ borders.min_y < 0 ∨ borders.min_x > borders.max_x ∨
          borders.min_y > borders.max_y →
        cache_borders_texture cached borders env = (Code.error, false)) := by
  refine ⟨?_, ?_, ?_⟩
  · intro x y s env hs hneg
    rw [print_absolute]
    rw [if_neg hs, if_pos hneg]
  · intro y s env hneg
    rw [print_centered, if_pos hneg]
  · intro cached borders env hbad
    cases cached with
    | true => rw [cache_borders_texture, if_pos rfl]
    | false =>
      rw [cache_borders_texture, if_neg (by simp), if_pos hbad]

/-- Witness for C7 (amended): concrete rejections — `print_absolute` at
`(-1, 0)` with `"a"`, `print_centered` at `y = -2`, and
`cache_borders_texture` with `min_x = -1 > max_x` absent a cached
texture. -/
theorem drawing_rejects_invalid_geometry_witness :
    print_absolute (-1) 0 (some "a") ⟨true, true⟩ = (Code.error, false) ∧
    print_centered (-2) "a" ⟨true, true⟩ = (Code.error, false) ∧
    cache_borders_texture false ⟨-1, 0, 5, 5⟩ ⟨true, true⟩ = (Code.error, false) :=
  ⟨drawing_rejects_invalid_geometry.1 (-1) 0 "a" ⟨true, true⟩ (by decide)
      (Or.inl (by norm_num)),
   drawing_rejects_invalid_geometry.2.1 (-2) "a" ⟨true, true⟩ (by norm_num),
   drawing_rejects_invalid_geometry.2.2 false ⟨-1, 0, 5, 5⟩ ⟨true, true⟩
      (Or.inl (by norm_num))⟩

/-- C10: for every `x` and `y`, including negative ones, `print_absolute`
returns `CODE_OK` and renders nothing when the string is NULL or empty —
the empty-string check precedes the negative-coordinate check, so such a
call succeeds instead of returning `CODE_ERROR`. -/
theorem print_absolute_null_or_empty_returns_ok (x y : Int) (env : RenderEnv) :
    print_absolute x y none env = (Code.ok, false) ∧
    print_absolute x y (some "") env = (Code.ok, false) := by
  constructor
  · rfl
  · rw [print_absolute, if_pos rfl]


/-! ## Frame rendering: `draw_game` (`walls-of-doom/io.c`) -/

/-- The `Perk` enumeration from `perks.h`. -/
inductive Perk where
  | power_invincibility : Perk
  | power_levitation : Perk
  | power_low_gravity : Perk
  | power_super_jump : Perk
  | power_time_stop : Perk
  | bonus_extra_points : Perk
  | bonus_extra_life : Perk
  | count : Perk
  | none : Perk
deriving Repr, DecidableEq

/-- Modelled from the spec: the perk display name used by the top bar
(`get_perk_name` lives in `perk.c`, which is not among the sources; the
claim does not depend on the exact strings). -/
def get_perk_name (p : Perk) : String :=
  match p with
  | Perk.power_invincibility => "Invincibility"
  | Perk.power_levitation => "Levitation"
  | Perk.power_low_gravity => "Low Gravity"
  | Perk.power_super_jump => "Super Jump"
  | Perk.power_time_stop => "Time Stop"
  | Perk.bonus_extra_points => "Extra Points"
  | Perk.bonus_extra_life => "Extra Life"
  | Perk.count => "Count"
  | Perk.none => "No Power"

/-- The `Player` fields that `draw_game` reads (`player.h` is not among
the sources; field shapes follow the uses in `io.c` and the spec). -/
structure Player where
  x : Int
  y : Int
  lives : Int
  score : Int
  perk : Perk
deriving Repr, DecidableEq

/-- The `Game` aggregate of `game.h`, restricted to the fields read while
drawing, with the header's field names. -/
structure Game where
  player : Player
  platforms : List Platform
  current_frame : Nat
  played_frames : Nat
  paused : Bool
  perk : Perk
  perk_x : Int
  perk_y : Int
  perk_end_frame : Nat
  box : BoundingBox
  rigid_matrix : RigidMatrix
  message : String
  message_end_frame : Nat
  message_priority : Nat

/-- One operation issued to the SDL renderer. -/
inductive RenderOp where
  | clearOp : RenderOp
  | presentOp : RenderOp
  | fillRect (x y w h : Int) : RenderOp
  | textAt (x y : Int) (s : String) : RenderOp
  | centeredText (y : Int) (strings : List String) : RenderOp
  | copyBorders (x y : Int) : RenderOp
deriving Repr, DecidableEq

/-- The window and font metrics held in the statics of `io.c`, plus the
columns/lines settings. -/
structure Metrics where
  window_width : Int
  window_height : Int
  bar_height : Int
  font_width : Int
  font_height : Int
  columns : Int
  lines : Int
deriving Repr, DecidableEq

/-- The world `draw_game` runs in: the `Game` (reached through a `const`
pointer), the metrics, the wall clock (a stream of millisecond readings
indexed by `clockIdx`), the render-operation log, the profiler log and
the cached-borders static. -/
structure DrawWorld where
  game : Game
  metrics : Metrics
  clock : Nat → Nat
  clockIdx : Nat
  renderLog : List RenderOp
  profilerLog : List (String × Nat)
  bordersCached : Bool

/-- Function `get_milliseconds` (`clock.c`): read the wall clock. -/
def get_milliseconds (w : DrawWorld) : Nat × DrawWorld :=
  (w.clock w.clockIdx, { w with clockIdx := w.clockIdx + 1 })

/-- Function `update_profiler` (`profiler.c`): record a named timing. -/
def update_profiler (tag : String) (value : Nat) (w : DrawWorld) : DrawWorld :=
  { w with profilerLog := w.profilerLog ++ [(tag, value)] }

/-- Append one operation to the renderer log. -/
def emitRenderOp (op : RenderOp) (w : DrawWorld) : DrawWorld :=
  { w with renderLog := w.renderLog ++ [op] }

/-- Function `clear` from `io.c`: `SDL_RenderClear`. -/
def clear (w : DrawWorld) : DrawWorld := emitRenderOp RenderOp.clearOp w

/-- Function `present` from `io.c`: `SDL_RenderPresent`. -/
def present (w : DrawWorld) : DrawWorld := emitRenderOp RenderOp.presentOp w

def get_tile_width (m : Metrics) : Int := m.window_width / m.columns

def get_tile_height (m : Metrics) : Int := (m.window_height - m.bar_height) / m.lines

/-- Function `draw_absolute_rectangle` from `io.c` (the draw-color save/restore
has no observable effect on the log). -/
def draw_absolute_rectangle (x y wd ht : Int) (w : DrawWorld) : DrawWorld :=
  emitRenderOp (RenderOp.fillRect x y wd ht) w

/-- Function `draw_rectangle` from `io.c`: scale tile coordinates to pixels. -/
def draw_rectangle (x y wd ht : Int) (w : DrawWorld) : DrawWorld :=
  draw_absolute_rectangle (x * get_tile_width w.metrics)
    (w.metrics.bar_height + y * get_tile_height w.metrics)
    (wd * get_tile_width w.metrics) (ht * get_tile_height w.metrics) w

/-- Function `write_top_bar_strings` from `io.c`: fill the top bar, then print the
strings centered across it. -/
def write_top_bar_strings (strings : List String) (w : DrawWorld) : DrawWorld :=
  emitRenderOp
    (RenderOp.centeredText ((w.metrics.bar_height - w.metrics.font_height) / 2) strings)
    (draw_absolute_rectangle 0 0 w.metrics.window_width w.metrics.bar_height w)

/-- Function `draw_top_bar` from `io.c`: game name, perk name, lives and score. -/
def draw_top_bar (p : Player) (w : DrawWorld) : DrawWorld :=
  write_top_bar_strings
    ["Walls of Doom",
     if p.perk ≠ Perk.none then get_perk_name p.perk else "No Power",
     "Lives: " ++ toString p.lives,
     "Score: " ++ toString p.score] w

/-- Function `write_bottom_bar_string` from `io.c`: the message, half a character
from the left edge, vertically centered in the bottom bar. -/
def write_bottom_bar_string (s : String) (w : DrawWorld) : DrawWorld :=
  emitRenderOp
    (RenderOp.textAt (w.metrics.font_width / 2)
      (w.metrics.window_height - w.metrics.bar_height +
        (w.metrics.bar_height - w.metrics.font_height) / 2) s) w

/-- Function `draw_bottom_bar` from `io.c`: fill the bottom bar, then write the
game message. -/
def draw_bottom_bar (s : String) (w : DrawWorld) : DrawWorld :=
  write_bottom_bar_string s
    (draw_absolute_rectangle 0 (w.metrics.window_height - w.metrics.bar_height)
      w.metrics.window_width w.metrics.bar_height w)

/-- Function `render_borders` from `io.c`: cache the borders texture on first use
(a static of the render layer, not of the game), then copy it. -/
def render_borders (borders : BoundingBox) (w : DrawWorld) : DrawWorld :=
  let w1 := if w.bordersCached = true then w else { w with bordersCached := true }
  emitRenderOp
    (RenderOp.copyBorders (borders.min_x * get_tile_width w1.metrics)
      (w1.metrics.bar_height + borders.min_y * get_tile_height w1.metrics)) w1

/-- Function `draw_borders` from `io.c`: borders of the whole screen grid. -/
def draw_borders (w : DrawWorld) : DrawWorld :=
  render_borders ⟨0, 0, w.metrics.columns - 1, w.metrics.lines - 1⟩ w

/-- Function `draw_platforms` from `io.c`: one row-high rectangle per platform,
horizontally clipped to the bounding box. -/
def draw_platforms (platforms : List Platform) (box : BoundingBox) (w : DrawWorld) :
    DrawWorld :=
  platforms.foldl
    (fun (acc : DrawWorld) (p : Platform) =>
      draw_rectangle (max box.min_x p.x) p.y
        (min box.max_x (p.x + (p.width : Int) - 1) - max box.min_x p.x + 1) 1 acc)
    w

/-- Function `has_active_perk` from `io.c`. -/
def has_active_perk (g : Game) : Bool := g.perk != Perk.none

/-- Function `draw_perk` from `io.c`: a unit rectangle at the perk cell when a
perk is on the board. -/
def draw_perk (g : Game) (w : DrawWorld) : DrawWorld :=
  if has_active_perk g = true then draw_rectangle g.perk_x g.perk_y 1 1 w else w

/-- Function `draw_player` from `io.c`: a unit rectangle at the player cell. -/
def draw_player (p : Player) (w : DrawWorld) : DrawWorld :=
  draw_rectangle p.x p.y 1 1 w

/-- Function `draw_game` from `io.c`: clear, top bar, bottom bar, borders,
platforms, perk, player, present — each timed and profiled — returning
the elapsed wall-clock milliseconds. -/
def draw_game (w0 : DrawWorld) : Nat × DrawWorld :=
  let ms0 := get_milliseconds w0
  let ms1 := get_milliseconds ms0.2
  let w1 := clear ms1.2
  let ms1e := get_milliseconds w1
  let w1p := update_profiler "draw_game:clear" (ms1e.1 - ms1.1) ms1e.2
  let ms2 := get_milliseconds w1p
  let w2 := draw_top_bar ms2.2.game.player ms2.2
  let ms2e := get_milliseconds w2
  let w2p := update_profiler "draw_game:draw_top_bar" (ms2e.1 - ms2.1) ms2e.2
  let ms3 := get_milliseconds w2p
  let w3 := draw_bottom_bar ms3.2.game.message ms3.2
  let ms3e := get_milliseconds w3
  let w3p := update_profiler "draw_game:draw_bottom_bar" (ms3e.1 - ms3.1) ms3e.2
  let ms4 := get_milliseconds w3p
  let w4 := draw_borders ms4.2
  let ms4e := get_milliseconds w4
  let w4p := update_profiler "draw_game:draw_borders" (ms4e.1 - ms4.1) ms4e.2
  let ms5 := get_milliseconds w4p
  let w5 := draw_platforms ms5.2.game.platforms ms5.2.game.box ms5.2
  let ms5e := get_milliseconds w5
  let w5p := update_profiler "draw_game:draw_platforms" (ms5e.1 - ms5.1) ms5e.2
  let ms6 := get_milliseconds w5p
  let w6 := draw_perk ms6.2.game ms6.2
  let ms6e := get_milliseconds w6
  let w6p := update_profiler "draw_game:draw_perk" (ms6e.1 - ms6.1) ms6e.2
  let ms7 := get_milliseconds w6p
  let w7 := draw_player ms7.2.game.player ms7.2
  let ms7e := get_milliseconds w7
  let w7p := update_profiler "draw_game:draw_player" (ms7e.1 - ms7.1) ms7e.2
  let ms8 := get_milliseconds w7p
  let w8 := present ms8.2
  let ms8e := get_milliseconds w8
  let w8p := update_profiler "draw_game:present" (ms8e.1 - ms8.1) ms8e.2
  let msF := get_milliseconds w8p
  let wF := update_profiler "draw_game" (msF.1 - ms0.1) msF.2
  let msR := get_milliseconds wF
  (msR.1 - ms0.1, msR.2)

/-! ### Preservation lemmas for the drawing pipeline -/

@[simp] theorem get_milliseconds_val (w : DrawWorld) :
    (get_milliseconds w).1 = w.clock w.clockIdx := rfl

@[simp] theorem get_milliseconds_game (w : DrawWorld) :
    (get_milliseconds w).2.game = w.game := rfl

@[simp] theorem get_milliseconds_clock (w : DrawWorld) :
    (get_milliseconds w).2.clock = w.clock := rfl

@[simp] theorem get_milliseconds_clockIdx (w : DrawWorld) :
    (get_milliseconds w).2.clockIdx = w.clockIdx + 1 := rfl

@[simp] theorem update_profiler_game (tag : String) (v : Nat) (w : DrawWorld) :
    (update_profiler tag v w).game = w.game := rfl

@[simp] theorem update_profiler_clock (tag : String) (v : Nat) (w : DrawWorld) :
    (update_profiler tag v w).clock = w.clock := rfl

@[simp] theorem update_profiler_clockIdx (tag : String) (v : Nat) (w : DrawWorld) :
    (update_profiler tag v w).clockIdx = w.clockIdx := rfl

@[simp] theorem clear_game (w : DrawWorld) : (clear w).game = w.game := rfl

@[simp] theorem clear_clock (w : DrawWorld) : (clear w).clock = w.clock := rfl

@[simp] theorem clear_clockIdx (w : DrawWorld) : (clear w).clockIdx = w.clockIdx := rfl

@[simp] theorem present_game (w : DrawWorld) : (present w).game = w.game := rfl

@[simp] theorem present_clock (w : DrawWorld) : (present w).clock = w.clock := rfl

@[simp] theorem present_clockIdx (w : DrawWorld) : (present w).clockIdx = w.clockIdx := rfl

@[simp] theorem draw_top_bar_game (p : Player) (w : DrawWorld) :
    (draw_top_bar p w).game = w.game := rfl

@[simp] theorem draw_top_bar_clock (p : Player) (w : DrawWorld) :
    (draw_top_bar p w).clock = w.clock := rfl

@[simp] theorem draw_top_bar_clockIdx (p : Player) (w : DrawWorld) :
    (draw_top_bar p w).clockIdx = w.clockIdx := rfl

@[simp] theorem draw_bottom_bar_game (s : String) (w : DrawWorld) :
    (draw_bottom_bar s w).game = w.game := rfl

@[simp] theorem draw_bottom_bar_clock (s : String) (w : DrawWorld) :
    (draw_bottom_bar s w).clock = w.clock := rfl

@[simp] theorem draw_bottom_bar_clockIdx (s : String) (w : DrawWorld) :
    (draw_bottom_bar s w).clockIdx = w.clockIdx := rfl

@[simp] theorem draw_borders_game (w : DrawWorld) : (draw_borders w).game = w.game := by
  rw [draw_borders, render_borders]
  dsimp only
  split <;> rfl

@[simp] theorem draw_borders_clock (w : DrawWorld) : (draw_borders w).clock = w.clock := by
  rw [draw_borders, render_borders]
  dsimp only
  split <;> rfl

@[simp] theorem draw_borders_clockIdx (w : DrawWorld) :
    (draw_borders w).clockIdx = w.clockIdx := by
  rw [draw_borders, render_borders]
  dsimp only
  split <;> rfl

@[simp] theorem draw_platforms_game (ps : List Platform) (box : BoundingBox)
    (w : DrawWorld) : (draw_platforms ps box w).game = w.game := by
  induction ps generalizing w with
  | nil => rfl
  | cons p rest ih =>
    rw [draw_platforms, List.foldl_cons]
    exact ih _

@[simp] theorem draw_platforms_clock (ps : List Platform) (box : BoundingBox)
    (w : DrawWorld) : (draw_platforms ps box w).clock = w.clock := by
  induction ps generalizing w with
  | nil => rfl
  | cons p rest ih =>
    rw [draw_platforms, List.foldl_cons]
    exact ih _

@[simp] theorem draw_platforms_clockIdx (ps : List Platform) (box : BoundingBox)
    (w : DrawWorld) : (draw_platforms ps box w).clockIdx = w.clockIdx := by
  induction ps generalizing w with
  | nil => rfl
  | cons p rest ih =>
    rw [draw_platforms, List.foldl_cons]
    exact ih _

@[simp] theorem draw_perk_game (g : Game) (w : DrawWorld) :
    (draw_perk g w).game = w.game := by
  rw [draw_perk]
  split <;> rfl

@[simp] theorem draw_perk_clock (g : Game) (w : DrawWorld) :
    (draw_perk g w).clock = w.clock := by
  rw [draw_perk]
  split <;> rfl

@[simp] theorem draw_perk_clockIdx (g : Game) (w : DrawWorld) :
    (draw_perk g w).clockIdx = w.clockIdx := by
  rw [draw_perk]
  split <;> rfl

@[simp] theorem draw_player_game (p : Player) (w : DrawWorld) :
    (draw_player p w).game = w.game := rfl

@[simp] theorem draw_player_clock (p : Player) (w : DrawWorld) :
    (draw_player p w).clock = w.clock := rfl

@[simp] theorem draw_player_clockIdx (p : Player) (w : DrawWorld) :
    (draw_player p w).clockIdx = w.clockIdx := rfl

/-- C8: `draw_game` never changes the `Game` it receives — the game
component of the world it returns is the game it started from — and its
return value is the elapsed wall-clock time between its first and its
last `get_milliseconds` call (its 19th clock reading minus its first),
not a game-logic value. -/
theorem draw_game_preserves_game_and_returns_elapsed (w : DrawWorld) :
    (draw_game w).2.game = w.game ∧
    (draw_game w).1 = w.clock (w.clockIdx + 18) - w.clock w.clockIdx := by
  constructor
  · simp [draw_game]
  · simp [draw_game, Nat.add_assoc]

end WallsOfDoom
